import Mathlib

/-!
Shallow embedding of `src/parallel.go` (package `pipeline`), the
fan-out/fan-in stage of a data-processing pipeline.

Modelling conventions:
- `Datum` names the items of one admission: the admitted item is
  `Datum.original`; the clone created in iteration `i` of the dispatch
  loop is `Datum.clone i` (`data.Clone()` yields a fresh independent copy,
  so the clones and the original are pairwise distinct identities).
- A `Task` is abstracted by the value pair `Process` returns for a given
  clone: `(returned Item or nil, error or nil)`.
- Observable side effects (channel sends, `MarkAsProcessed` calls, error
  sink appends) are recorded as an ordered `List Event` per goroutine.
- Cancellation (`ctx.Done()`) is modelled by oracles: `cancelPub i` tells
  whether the `select` at the publish of clone `i` takes the `ctx.Done()`
  branch, and `cancelOut` whether the final forward `select` does.
- The values the executor receives from the `done` channel arrive in a
  nondeterministic order; they are passed in as the list `arrival`.
-/

namespace pipeline

/-- Item identities of a single admission. -/
inductive Datum where
  | original : Datum
  | clone : Nat → Datum
deriving DecidableEq, Repr

/-- A `Task` abstracted by what `Process(ctx, clone, tp)` returns for a
clone: the returned `Data` (or `nil`) and the error (or `nil`). -/
def Task : Type := Datum → Option Datum × Option String

/-- Observable side effects of the stage: sends on the `NewData`,
`ProcessedData`, `done` and `Output` channels, `MarkAsProcessed` calls and
appends to the error sink. -/
inductive Event where
  | newData : Datum → Event
  | processedData : Datum → Event
  | markAsProcessed : Datum → Event
  | doneSend : Option Datum → Event
  | errAppend : String → Event
  | outputSend : Datum → Event
deriving DecidableEq, Repr

/-- The `parallel` stage struct: an id and a task list
(`src/parallel.go` lines 8-11). -/
structure parallel where
  id : String
  tasks : List Task

/-- The `Parallel` constructor (`src/parallel.go` lines 17-26): returns
`nil` (here `none`) when the task list is empty. -/
def Parallel (id : String) (tasks : List Task) : Option parallel :=
  if tasks.length = 0 then none
  else some { id := id, tasks := tasks }

/-- `(p *parallel) ID()` (`src/parallel.go` lines 29-31). -/
def parallel.ID (p : parallel) : String := p.id

/-- Default task used for out-of-range `getD` lookups (never reached when
indexing below `p.tasks.length`). -/
def defaultTask : Task := fun _ => (none, none)

/-- Ordered trace of one Task Runner goroutine
(`src/parallel.go` lines 66-81): run `Process`; if the error is non-nil,
append the position-tagged error to the sink; then unconditionally publish
the clone on `ProcessedData`, mark the clone processed, and send the
returned item on `done`. -/
def taskRunnerTrace (pos : Nat) (t : Task) (c : Datum) : List Event :=
  let r := t c
  (match r.2 with
   | some msg => [Event.errAppend ("pipeline stage " ++ toString pos ++ ": " ++ msg)]
   | none => []) ++
  [Event.processedData c, Event.markAsProcessed c, Event.doneSend r.1]

/-- Result of the clone-publish loop (`src/parallel.go` lines 57-82):
how many runners were dispatched, the `NewData` publishes made, and
whether the loop aborted on `ctx.Done()`. -/
structure PublishResult where
  dispatched : Nat
  events : List Event
  aborted : Bool
deriving DecidableEq, Repr

/-- The dispatch loop, iterating over the remaining `fuel` tasks starting
at index `i`: at each iteration the `select` either observes cancellation
(abort the whole fan-out) or publishes the fresh clone on `NewData` and
launches its Task Runner. -/
def publishClones (cancelPub : Nat → Bool) (i : Nat) : Nat → PublishResult
  | 0 => { dispatched := i, events := [], aborted := false }
  | fuel + 1 =>
    if cancelPub i then { dispatched := i, events := [], aborted := true }
    else
      let rest := publishClones cancelPub (i + 1) fuel
      { dispatched := rest.dispatched
        events := Event.newData (Datum.clone i) :: rest.events
        aborted := rest.aborted }

/-- The fan-in decision (`src/parallel.go` lines 84-89): receive the task
outcomes one by one; `failed` becomes true as soon as a `nil` is seen. -/
def joinFailed (arrival : List (Option Datum)) : Bool :=
  arrival.foldl (fun failed d => failed || d.isNone) false

/-- Outcome of one `executeTask` call: the executor goroutine's own event
trace, how many runners it dispatched, whether it aborted during dispatch,
and the values it received from the `done` channel. -/
structure ExecOutcome where
  execEvents : List Event
  dispatched : Nat
  aborted : Bool
  received : List (Option Datum)
deriving DecidableEq, Repr

/-- Capacity of the completion-signal channel:
`done := make(chan Data, len(p.tasks))` (`src/parallel.go` line 55). -/
def doneChanCapacity (p : parallel) : Nat := p.tasks.length

/-- `executeTask` (`src/parallel.go` lines 54-100) for admitted item
`data`: dispatch up to `N` clones/runners (cancellable per publish), then,
if not aborted, receive exactly `N` outcomes; on any `nil` outcome publish
the original on `ProcessedData`, mark it processed and return; otherwise
forward the original to `Output` unless cancellation fires first. -/
def executeTask (p : parallel) (data : Datum) (cancelPub : Nat → Bool)
    (cancelOut : Bool) (arrival : List (Option Datum)) : ExecOutcome :=
  let n := p.tasks.length
  let pub := publishClones cancelPub 0 n
  if pub.aborted then
    { execEvents := pub.events, dispatched := pub.dispatched
      aborted := true, received := [] }
  else if joinFailed arrival then
    { execEvents := pub.events ++
        [Event.processedData data, Event.markAsProcessed data]
      dispatched := pub.dispatched, aborted := false, received := arrival }
  else if cancelOut then
    { execEvents := pub.events
      dispatched := pub.dispatched, aborted := false, received := arrival }
  else
    { execEvents := pub.events ++ [Event.outputSend data]
      dispatched := pub.dispatched, aborted := false, received := arrival }

/-- Concatenated traces of the first `k` dispatched Task Runners for
stage position `pos` (each runner `i` executes `p.tasks[i]` on clone
`i`). -/
def runnerEvents (p : parallel) (pos : Nat) (k : Nat) : List Event :=
  ((List.range k).map
    (fun i => taskRunnerTrace pos (p.tasks.getD i defaultTask) (Datum.clone i))).flatten

/-- All observable events of one admission: the executor's own events
plus the traces of every Task Runner that was actually dispatched
(dispatched runners always run to completion, even if the executor
aborts). Ordering between the executor and the runners is interleaved at
runtime; this list is used for counting, which is
interleaving-independent. -/
def admissionEvents (p : parallel) (data : Datum) (pos : Nat)
    (cancelPub : Nat → Bool) (cancelOut : Bool)
    (arrival : List (Option Datum)) : List Event :=
  let out := executeTask p data cancelPub cancelOut arrival
  out.execEvents ++ runnerEvents p pos out.dispatched

/-- Number of `ProcessedData` sends of item `d` in a trace. -/
def countProcessedOf (evs : List Event) (d : Datum) : Nat :=
  evs.countP fun e => decide (e = Event.processedData d)

/-- Number of `MarkAsProcessed` calls on item `d` in a trace. -/
def countMarkedOf (evs : List Event) (d : Datum) : Nat :=
  evs.countP fun e => decide (e = Event.markAsProcessed d)

/-- Total number of `ProcessedData` sends in a trace. -/
def countProcessedAll (evs : List Event) : Nat :=
  evs.countP fun e => match e with | Event.processedData _ => true | _ => false

/-- Total number of sends on the completion-signal channel in a trace. -/
def countDone (evs : List Event) : Nat :=
  evs.countP fun e => match e with | Event.doneSend _ => true | _ => false

/-- Total number of error-sink appends in a trace. -/
def countErr (evs : List Event) : Nat :=
  evs.countP fun e => match e with | Event.errAppend _ => true | _ => false

/-- One admission source event observed by the `Run` loop
(`src/parallel.go` lines 34-52). -/
inductive QVal where
  | data : Datum → QVal
  | notData : QVal
deriving DecidableEq, Repr

inductive LoopEvent where
  | ctxDone : LoopEvent
  | inputRecv : Option Datum → LoopEvent
  | queueSignal : Option QVal → LoopEvent

/-- What one iteration of the `Run` select loop does. -/
inductive StepResult where
  | terminated : StepResult
  | continued : StepResult
  | executed : ExecOutcome → StepResult
deriving DecidableEq, Repr

/-- One iteration of the `Run` event loop (`src/parallel.go` lines
35-51): cancellation or a closed input channel terminates; an input item
is handed to `executeTask`; a queue signal pops (tolerating an empty pop
and a non-`Data` value) and hands a popped `Data` to the same
`executeTask`. -/
def stepOutcome (p : parallel) (cancelPub : Nat → Bool) (cancelOut : Bool)
    (arrival : List (Option Datum)) : LoopEvent → StepResult
  | LoopEvent.ctxDone => StepResult.terminated
  | LoopEvent.inputRecv none => StepResult.terminated
  | LoopEvent.inputRecv (some d) =>
      StepResult.executed (executeTask p d cancelPub cancelOut arrival)
  | LoopEvent.queueSignal none => StepResult.continued
  | LoopEvent.queueSignal (some (QVal.data d)) =>
      StepResult.executed (executeTask p d cancelPub cancelOut arrival)
  | LoopEvent.queueSignal (some QVal.notData) => StepResult.continued

/-- Number of `Output` sends of item `d` in a trace. -/
def countOutputOf (evs : List Event) (d : Datum) : Nat :=
  evs.countP fun e => decide (e = Event.outputSend d)

/-- Sample task that succeeds, returning its input clone. -/
def okTask : Task := fun c => (some c, none)

/-- Sample task that fails with error message `boom`. -/
def boomTask : Task := fun _ => (none, some "boom")

/-- A concrete one-task stage used to instantiate the theorems. -/
def sampleStage : parallel := { id := "stage", tasks := [okTask] }

/-- A concrete two-task stage used to instantiate the theorems. -/
def twoStage : parallel := { id := "two", tasks := [okTask, okTask] }

lemma foldl_or_isNone (l : List (Option Datum)) :
    ∀ b : Bool, l.foldl (fun failed d => failed || d.isNone) b
      = (b || l.any fun d => d.isNone) := by
  induction l with
  | nil => intro b; simp
  | cons d t ih => intro b; simp [ih, Bool.or_assoc]

lemma joinFailed_eq_any (l : List (Option Datum)) :
    joinFailed l = l.any fun d => d.isNone := by
  simpa [joinFailed] using foldl_or_isNone l false

lemma joinFailed_eq_false_iff (l : List (Option Datum)) :
    joinFailed l = false ↔ ∀ v ∈ l, v ≠ none := by
  rw [joinFailed_eq_any]
  simp [List.any_eq_false, Option.isNone_iff_eq_none]

lemma joinFailed_of_none_mem (l : List (Option Datum)) (h : none ∈ l) :
    joinFailed l = true := by
  rw [joinFailed_eq_any]
  exact List.any_eq_true.mpr ⟨none, h, rfl⟩

lemma publishClones_no_cancel (c : Nat → Bool) :
    ∀ (fuel start : Nat), (∀ j, j < fuel → c (start + j) = false) →
    publishClones c start fuel =
      { dispatched := start + fuel
        events := (List.range' start fuel).map fun j => Event.newData (Datum.clone j)
        aborted := false } := by
  intro fuel
  induction fuel with
  | zero => intro start h; simp [publishClones]
  | succ m ih =>
    intro start h
    have h0 : c start = false := by simpa using h 0 (Nat.succ_pos m)
    have hrest := ih (start + 1) (fun j hj => by
      have hj2 := h (j + 1) (Nat.succ_lt_succ hj)
      rwa [show start + (j + 1) = start + 1 + j by omega] at hj2)
    simp only [publishClones, h0, Bool.false_eq_true, if_false, hrest, List.range'_succ,
      List.map_cons]
    rw [show start + 1 + m = start + (m + 1) by omega]

lemma publishClones_cancel (c : Nat → Bool) :
    ∀ (k fuel start : Nat), k < fuel → c (start + k) = true →
    (∀ j, j < k → c (start + j) = false) →
    publishClones c start fuel =
      { dispatched := start + k
        events := (List.range' start k).map fun j => Event.newData (Datum.clone j)
        aborted := true } := by
  intro k
  induction k with
  | zero =>
    intro fuel start hk hc _
    cases fuel with
    | zero => omega
    | succ m =>
      have hc0 : c start = true := by simpa using hc
      simp [publishClones, hc0]
  | succ k ih =>
    intro fuel start hk hc hprev
    cases fuel with
    | zero => omega
    | succ m =>
      have h0 : c start = false := by simpa using hprev 0 (Nat.succ_pos k)
      have hc1 : c (start + 1 + k) = true := by
        rwa [show start + 1 + k = start + (k + 1) by omega]
      have hprev1 : ∀ j, j < k → c (start + 1 + j) = false := fun j hj => by
        have hj2 := hprev (j + 1) (Nat.succ_lt_succ hj)
        rwa [show start + (j + 1) = start + 1 + j by omega] at hj2
      have hrest := ih m (start + 1) (by omega) hc1 hprev1
      simp only [publishClones, h0, Bool.false_eq_true, if_false, hrest, List.range'_succ,
        List.map_cons]
      rw [show start + 1 + k = start + (k + 1) by omega]

/-- Normal form of `executeTask` when cancellation never fires during the
dispatch loop: all `N` clones are published and dispatched, all `N`
outcomes are received, and the decision is taken by `joinFailed` and then
the output-waypoint cancellation. -/
lemma executeTask_no_cancel (p : parallel) (data : Datum) (cancelPub : Nat → Bool)
    (cancelOut : Bool) (arrival : List (Option Datum))
    (hnc : ∀ j, j < p.tasks.length → cancelPub j = false) :
    executeTask p data cancelPub cancelOut arrival =
      { execEvents := ((List.range p.tasks.length).map fun j => Event.newData (Datum.clone j)) ++
          (if joinFailed arrival then
            [Event.processedData data, Event.markAsProcessed data]
           else if cancelOut then []
           else [Event.outputSend data])
        dispatched := p.tasks.length
        aborted := false
        received := arrival } := by
  have hpub := publishClones_no_cancel cancelPub p.tasks.length 0
    (fun j hj => by simpa using hnc j hj)
  simp only [executeTask, hpub, List.range_eq_range', Nat.zero_add]
  by_cases hf : joinFailed arrival
  · simp [hf]
  · by_cases hco : cancelOut <;> simp [hf, hco]

lemma countProcessedOf_append (l₁ l₂ : List Event) (d : Datum) :
    countProcessedOf (l₁ ++ l₂) d = countProcessedOf l₁ d + countProcessedOf l₂ d :=
  List.countP_append _ _ _

lemma countMarkedOf_append (l₁ l₂ : List Event) (d : Datum) :
    countMarkedOf (l₁ ++ l₂) d = countMarkedOf l₁ d + countMarkedOf l₂ d :=
  List.countP_append _ _ _

lemma countProcessedAll_append (l₁ l₂ : List Event) :
    countProcessedAll (l₁ ++ l₂) = countProcessedAll l₁ + countProcessedAll l₂ :=
  List.countP_append _ _ _

lemma countDone_append (l₁ l₂ : List Event) :
    countDone (l₁ ++ l₂) = countDone l₁ + countDone l₂ :=
  List.countP_append _ _ _

lemma countOutputOf_append (l₁ l₂ : List Event) (d : Datum) :
    countOutputOf (l₁ ++ l₂) d = countOutputOf l₁ d + countOutputOf l₂ d :=
  List.countP_append _ _ _

lemma countP_newData_map_eq_zero (q : Event → Bool)
    (hq : ∀ d, q (Event.newData d) = false) (l : List Nat) :
    List.countP q (l.map fun j => Event.newData (Datum.clone j)) = 0 := by
  induction l with
  | nil => simp
  | cons a t ih => simp [List.countP_cons, hq, ih]

lemma countProcessedOf_newData (l : List Nat) (d : Datum) :
    countProcessedOf (l.map fun j => Event.newData (Datum.clone j)) d = 0 :=
  countP_newData_map_eq_zero _ (fun _ => by simp) l

lemma countMarkedOf_newData (l : List Nat) (d : Datum) :
    countMarkedOf (l.map fun j => Event.newData (Datum.clone j)) d = 0 :=
  countP_newData_map_eq_zero _ (fun _ => by simp) l

lemma countProcessedAll_newData (l : List Nat) :
    countProcessedAll (l.map fun j => Event.newData (Datum.clone j)) = 0 :=
  countP_newData_map_eq_zero _ (fun _ => rfl) l

lemma countOutputOf_newData (l : List Nat) (d : Datum) :
    countOutputOf (l.map fun j => Event.newData (Datum.clone j)) d = 0 :=
  countP_newData_map_eq_zero _ (fun _ => by simp) l

lemma countProcessedAll_taskRunnerTrace (pos : Nat) (t : Task) (c : Datum) :
    countProcessedAll (taskRunnerTrace pos t c) = 1 := by
  rcases h : t c with ⟨d, e⟩
  cases e <;>
    simp [taskRunnerTrace, h, countProcessedAll, List.countP_cons]

lemma countDone_taskRunnerTrace (pos : Nat) (t : Task) (c : Datum) :
    countDone (taskRunnerTrace pos t c) = 1 := by
  rcases h : t c with ⟨d, e⟩
  cases e <;>
    simp [taskRunnerTrace, h, countDone, List.countP_cons]

lemma countProcessedOf_taskRunnerTrace (pos : Nat) (t : Task) (c d : Datum) :
    countProcessedOf (taskRunnerTrace pos t c) d = if c = d then 1 else 0 := by
  rcases h : t c with ⟨r, e⟩
  by_cases hcd : c = d
  · subst hcd
    cases e <;> simp [taskRunnerTrace, h, countProcessedOf, List.countP_cons]
  · cases e <;> simp [taskRunnerTrace, h, countProcessedOf, List.countP_cons, hcd]

lemma countMarkedOf_taskRunnerTrace (pos : Nat) (t : Task) (c d : Datum) :
    countMarkedOf (taskRunnerTrace pos t c) d = if c = d then 1 else 0 := by
  rcases h : t c with ⟨r, e⟩
  by_cases hcd : c = d
  · subst hcd
    cases e <;> simp [taskRunnerTrace, h, countMarkedOf, List.countP_cons]
  · cases e <;> simp [taskRunnerTrace, h, countMarkedOf, List.countP_cons, hcd]

lemma countOutputOf_taskRunnerTrace (pos : Nat) (t : Task) (c d : Datum) :
    countOutputOf (taskRunnerTrace pos t c) d = 0 := by
  rcases h : t c with ⟨r, e⟩
  cases e <;>
    simp [taskRunnerTrace, h, countOutputOf, List.countP_cons]

lemma runnerEvents_succ (p : parallel) (pos m : Nat) :
    runnerEvents p pos (m + 1) =
      runnerEvents p pos m ++
        taskRunnerTrace pos (p.tasks.getD m defaultTask) (Datum.clone m) := by
  simp [runnerEvents, List.range_succ]

lemma countProcessedAll_runnerEvents (p : parallel) (pos : Nat) :
    ∀ k, countProcessedAll (runnerEvents p pos k) = k := by
  intro k
  induction k with
  | zero => simp [runnerEvents, countProcessedAll]
  | succ m ih =>
    rw [runnerEvents_succ, countProcessedAll_append, ih,
      countProcessedAll_taskRunnerTrace]

lemma countDone_runnerEvents (p : parallel) (pos : Nat) :
    ∀ k, countDone (runnerEvents p pos k) = k := by
  intro k
  induction k with
  | zero => simp [runnerEvents, countDone]
  | succ m ih =>
    rw [runnerEvents_succ, countDone_append, ih, countDone_taskRunnerTrace]

lemma countProcessedOf_runnerEvents_original (p : parallel) (pos : Nat) :
    ∀ k, countProcessedOf (runnerEvents p pos k) Datum.original = 0 := by
  intro k
  induction k with
  | zero => simp [runnerEvents, countProcessedOf]
  | succ m ih =>
    rw [runnerEvents_succ, countProcessedOf_append, ih,
      countProcessedOf_taskRunnerTrace]
    simp

lemma countMarkedOf_runnerEvents_original (p : parallel) (pos : Nat) :
    ∀ k, countMarkedOf (runnerEvents p pos k) Datum.original = 0 := by
  intro k
  induction k with
  | zero => simp [runnerEvents, countMarkedOf]
  | succ m ih =>
    rw [runnerEvents_succ, countMarkedOf_append, ih,
      countMarkedOf_taskRunnerTrace]
    simp

lemma countOutputOf_runnerEvents (p : parallel) (pos : Nat) (d : Datum) :
    ∀ k, countOutputOf (runnerEvents p pos k) d = 0 := by
  intro k
  induction k with
  | zero => simp [runnerEvents, countOutputOf]
  | succ m ih =>
    rw [runnerEvents_succ, countOutputOf_append, ih,
      countOutputOf_taskRunnerTrace]

lemma countProcessedOf_failTail (d : Datum) :
    countProcessedOf [Event.processedData d, Event.markAsProcessed d] d = 1 := by
  simp [countProcessedOf, List.countP_cons]

lemma countMarkedOf_failTail (d : Datum) :
    countMarkedOf [Event.processedData d, Event.markAsProcessed d] d = 1 := by
  simp [countMarkedOf, List.countP_cons]

lemma countProcessedAll_failTail (d : Datum) :
    countProcessedAll [Event.processedData d, Event.markAsProcessed d] = 1 := by
  simp [countProcessedAll, List.countP_cons]

lemma countProcessedOf_outTail (d e : Datum) :
    countProcessedOf [Event.outputSend e] d = 0 := by
  simp [countProcessedOf, List.countP_cons]

lemma countMarkedOf_outTail (d e : Datum) :
    countMarkedOf [Event.outputSend e] d = 0 := by
  simp [countMarkedOf, List.countP_cons]

lemma countProcessedAll_outTail (e : Datum) :
    countProcessedAll [Event.outputSend e] = 0 := by
  simp [countProcessedAll, List.countP_cons]

lemma countProcessedOf_cons (e : Event) (l : List Event) (d : Datum) :
    countProcessedOf (e :: l) d
      = countProcessedOf l d + (if e = Event.processedData d then 1 else 0) := by
  simp [countProcessedOf, List.countP_cons]

lemma countMarkedOf_cons (e : Event) (l : List Event) (d : Datum) :
    countMarkedOf (e :: l) d
      = countMarkedOf l d + (if e = Event.markAsProcessed d then 1 else 0) := by
  simp [countMarkedOf, List.countP_cons]

lemma countProcessedAll_cons (e : Event) (l : List Event) :
    countProcessedAll (e :: l)
      = countProcessedAll l
        + (if (match e with | Event.processedData _ => true | _ => false) = true
           then 1 else 0) := by
  simp [countProcessedAll, List.countP_cons]

lemma countOutputOf_cons (e : Event) (l : List Event) (d : Datum) :
    countOutputOf (e :: l) d
      = countOutputOf l d + (if e = Event.outputSend d then 1 else 0) := by
  simp [countOutputOf, List.countP_cons]

lemma countProcessedOf_condTail (b : Bool) (d e : Datum) :
    countProcessedOf (if b then [] else [Event.outputSend e]) d = 0 := by
  cases b <;> simp [countProcessedOf, List.countP_cons]

lemma countMarkedOf_condTail (b : Bool) (d e : Datum) :
    countMarkedOf (if b then [] else [Event.outputSend e]) d = 0 := by
  cases b <;> simp [countMarkedOf, List.countP_cons]

lemma countProcessedAll_condTail (b : Bool) (e : Datum) :
    countProcessedAll (if b then [] else [Event.outputSend e]) = 0 := by
  cases b <;> simp [countProcessedAll, List.countP_cons]

lemma countProcessedOf_nil (d : Datum) : countProcessedOf [] d = 0 := rfl

lemma countMarkedOf_nil (d : Datum) : countMarkedOf [] d = 0 := rfl

lemma countProcessedAll_nil : countProcessedAll [] = 0 := rfl

/-- Claim C1: with the dispatch loop uncancelled (so the join takes
place), the original item is sent on the `Output` channel iff every value
received from the completion-signal channel is non-nil; and on any nil
outcome the item is never forwarded, whatever the cancellation state at
the forward waypoint. -/
theorem c1_forward_iff_all_success (p : parallel) (cancelPub : Nat → Bool)
    (arrival : List (Option Datum))
    (hnc : ∀ j, j < p.tasks.length → cancelPub j = false) :
    (Event.outputSend Datum.original ∈
        (executeTask p Datum.original cancelPub false arrival).execEvents
      ↔ ∀ v ∈ arrival, v ≠ none)
    ∧ (∀ cancelOut : Bool, none ∈ arrival →
        Event.outputSend Datum.original ∉
          (executeTask p Datum.original cancelPub cancelOut arrival).execEvents) := by
  constructor
  · rw [executeTask_no_cancel p Datum.original cancelPub false arrival hnc,
      ← joinFailed_eq_false_iff]
    by_cases hf : joinFailed arrival <;> simp [hf]
  · intro cancelOut hmem
    rw [executeTask_no_cancel p Datum.original cancelPub cancelOut arrival hnc]
    simp [joinFailed_of_none_mem arrival hmem]

/-- Claim C1 witness: `sampleStage` with its single task succeeding. -/
theorem c1_forward_iff_all_success_witness :
    (∀ j, j < sampleStage.tasks.length → (fun _ : Nat => false) j = false)
    ∧ ((Event.outputSend Datum.original ∈
          (executeTask sampleStage Datum.original (fun _ => false) false
            [some (Datum.clone 0)]).execEvents
        ↔ ∀ v ∈ [some (Datum.clone 0)], v ≠ none)
      ∧ (∀ cancelOut : Bool, none ∈ [some (Datum.clone 0)] →
          Event.outputSend Datum.original ∉
            (executeTask sampleStage Datum.original (fun _ => false) cancelOut
              [some (Datum.clone 0)]).execEvents)) :=
  ⟨fun _ _ => rfl,
    c1_forward_iff_all_success sampleStage (fun _ => false)
      [some (Datum.clone 0)] (fun _ _ => rfl)⟩

/-- Claim C2 fails on the code: at `sampleStage` (N = 1), with the single
task succeeding and the fan-out fully resolving (no cancellation), the
original item is announced on the processed-notification channel zero
times (not once), is marked processed zero times, and the channel carries
one announcement in total (N, not N + 1). -/
theorem c2_counterexample :
    countProcessedOf
      (admissionEvents sampleStage Datum.original 0 (fun _ => false) false
        [some (Datum.clone 0)]) Datum.original = 0
    ∧ countMarkedOf
        (admissionEvents sampleStage Datum.original 0 (fun _ => false) false
          [some (Datum.clone 0)]) Datum.original = 0
    ∧ countProcessedAll
        (admissionEvents sampleStage Datum.original 0 (fun _ => false) false
          [some (Datum.clone 0)]) = 1 := by decide

/-- Claim C2 (amended): for every admitted item whose fan-out resolves,
the original item is marked processed and announced on the
processed-notification channel exactly once on the failure path and not at
all on the success path (where it is forwarded, or silently dropped on
cancellation, unmarked); the processed-notification channel receives
exactly N announcements for the admission when all received outcomes are
non-nil, and N + 1 when some outcome is nil. -/
theorem c2_amended_processed_counts (p : parallel) (pos : Nat)
    (cancelPub : Nat → Bool) (cancelOut : Bool) (arrival : List (Option Datum))
    (hnc : ∀ j, j < p.tasks.length → cancelPub j = false) :
    countProcessedOf (admissionEvents p Datum.original pos cancelPub cancelOut arrival)
        Datum.original = (if joinFailed arrival then 1 else 0)
    ∧ countMarkedOf (admissionEvents p Datum.original pos cancelPub cancelOut arrival)
        Datum.original = (if joinFailed arrival then 1 else 0)
    ∧ countProcessedAll (admissionEvents p Datum.original pos cancelPub cancelOut arrival)
        = p.tasks.length + (if joinFailed arrival then 1 else 0) := by
  have hex := executeTask_no_cancel p Datum.original cancelPub cancelOut arrival hnc
  simp only [admissionEvents, hex]
  by_cases hf : joinFailed arrival <;>
    simp [hf, countProcessedOf_append, countMarkedOf_append,
      countProcessedAll_append, countProcessedOf_newData, countMarkedOf_newData,
      countProcessedAll_newData, countProcessedOf_runnerEvents_original,
      countMarkedOf_runnerEvents_original, countProcessedAll_runnerEvents,
      countProcessedOf_cons, countMarkedOf_cons, countProcessedAll_cons,
      countProcessedOf_condTail, countMarkedOf_condTail, countProcessedAll_condTail,
      countProcessedOf_nil, countMarkedOf_nil, countProcessedAll_nil]

/-- Claim C2 (amended) witness: at `sampleStage`, the success run yields
counts 0 / 0 / 1 and the failure run yields 1 / 1 / 2. -/
theorem c2_amended_processed_counts_witness :
    (∀ j, j < sampleStage.tasks.length → (fun _ : Nat => false) j = false)
    ∧ countProcessedOf
        (admissionEvents sampleStage Datum.original 0 (fun _ => false) false [none])
        Datum.original = (if joinFailed [none] then 1 else 0) :=
  ⟨fun _ _ => rfl,
    (c2_amended_processed_counts sampleStage 0 (fun _ => false) false [none]
      (fun _ _ => rfl)).1⟩

/-- Claim C3: when the join takes place and some received value is nil,
the executor publishes the original item (not a clone) on the
processed-notification channel, marks the original processed, and returns
without sending anything on `Output`: its whole trace is the N `NewData`
publishes followed by exactly those two events. -/
theorem c3_nil_outcome_terminates_item (p : parallel) (cancelPub : Nat → Bool)
    (cancelOut : Bool) (arrival : List (Option Datum))
    (hnc : ∀ j, j < p.tasks.length → cancelPub j = false)
    (hnil : none ∈ arrival) :
    (executeTask p Datum.original cancelPub cancelOut arrival).execEvents
      = ((List.range p.tasks.length).map fun j => Event.newData (Datum.clone j)) ++
        [Event.processedData Datum.original, Event.markAsProcessed Datum.original]
    ∧ Event.outputSend Datum.original ∉
        (executeTask p Datum.original cancelPub cancelOut arrival).execEvents := by
  have hex := executeTask_no_cancel p Datum.original cancelPub cancelOut arrival hnc
  have hf := joinFailed_of_none_mem arrival hnil
  rw [hex]
  simp [hf]

/-- Claim C3 witness: `sampleStage` with the received outcome nil. -/
theorem c3_nil_outcome_terminates_item_witness :
    (∀ j, j < sampleStage.tasks.length → (fun _ : Nat => false) j = false)
    ∧ (none ∈ ([none] : List (Option Datum)))
    ∧ ((executeTask sampleStage Datum.original (fun _ => false) false [none]).execEvents
        = ((List.range sampleStage.tasks.length).map
            fun j => Event.newData (Datum.clone j)) ++
          [Event.processedData Datum.original, Event.markAsProcessed Datum.original]
      ∧ Event.outputSend Datum.original ∉
          (executeTask sampleStage Datum.original (fun _ => false) false [none]).execEvents) :=
  ⟨fun _ _ => rfl, by simp,
    c3_nil_outcome_terminates_item sampleStage (fun _ => false) false [none]
      (fun _ _ => rfl) (by simp)⟩

/-- Claim C4: every Task Runner, on success and on failure alike,
publishes its clone on the processed-notification channel exactly once,
marks the clone processed exactly once, sends on the completion-signal
channel exactly once, and its trace ends with exactly those three events
in that order (publish, mark, send the task's returned item). -/
theorem c4_runner_unconditional_order (pos : Nat) (t : Task) (c : Datum) :
    countProcessedOf (taskRunnerTrace pos t c) c = 1
    ∧ countMarkedOf (taskRunnerTrace pos t c) c = 1
    ∧ countDone (taskRunnerTrace pos t c) = 1
    ∧ (taskRunnerTrace pos t c).drop ((taskRunnerTrace pos t c).length - 3)
        = [Event.processedData c, Event.markAsProcessed c, Event.doneSend (t c).1] := by
  refine ⟨?_, ?_, countDone_taskRunnerTrace pos t c, ?_⟩
  · simp [countProcessedOf_taskRunnerTrace]
  · simp [countMarkedOf_taskRunnerTrace]
  · rcases h : t c with ⟨d, e⟩
    cases e <;> simp [taskRunnerTrace, h]

/-- Claim C5: a Task Runner whose task returns a non-nil error appends
exactly one position-tagged error to the Error Sink, as the first event of
its trace, and still performs its unconditional steps; and no other
runner's trace depends on that task — replacing task `i` of a stage leaves
the trace of every runner `j ≠ i` unchanged. -/
theorem c5_task_error_appended (pos : Nat) (t : Task) (c : Datum) (msg : String)
    (herr : (t c).2 = some msg) :
    taskRunnerTrace pos t c
      = Event.errAppend ("pipeline stage " ++ toString pos ++ ": " ++ msg)
        :: [Event.processedData c, Event.markAsProcessed c, Event.doneSend (t c).1]
    ∧ countErr (taskRunnerTrace pos t c) = 1
    ∧ (∀ (q₁ q₂ : parallel) (i : Nat),
        (∀ m, m ≠ i → q₁.tasks.getD m defaultTask = q₂.tasks.getD m defaultTask) →
        ∀ j, j ≠ i →
          taskRunnerTrace pos (q₁.tasks.getD j defaultTask) (Datum.clone j)
            = taskRunnerTrace pos (q₂.tasks.getD j defaultTask) (Datum.clone j)) := by
  refine ⟨?_, ?_, ?_⟩
  · rcases h : t c with ⟨d, e⟩
    rw [h] at herr
    simp at herr
    simp [taskRunnerTrace, h, herr]
  · rcases h : t c with ⟨d, e⟩
    rw [h] at herr
    simp at herr
    simp [taskRunnerTrace, h, herr, countErr, List.countP_cons]
  · intro q₁ q₂ i hsame j hj
    rw [hsame j hj]

/-- Claim C5 witness: `boomTask` failing with message `boom`. -/
theorem c5_task_error_appended_witness :
    (boomTask (Datum.clone 0)).2 = some "boom"
    ∧ taskRunnerTrace 0 boomTask (Datum.clone 0)
        = Event.errAppend ("pipeline stage " ++ toString 0 ++ ": " ++ "boom")
          :: [Event.processedData (Datum.clone 0),
              Event.markAsProcessed (Datum.clone 0),
              Event.doneSend (boomTask (Datum.clone 0)).1]
    ∧ countErr (taskRunnerTrace 0 boomTask (Datum.clone 0)) = 1 :=
  ⟨rfl, (c5_task_error_appended 0 boomTask (Datum.clone 0) "boom" rfl).1,
    (c5_task_error_appended 0 boomTask (Datum.clone 0) "boom" rfl).2.1⟩

/-- Claim C6: the completion-signal channel has capacity exactly N, the N
dispatched runners send exactly N values on it in total (so no send can
block), and once every runner is dispatched the executor receives exactly
the N arrival values before deciding, with the join unaffected by the
cancellation state of the later forward waypoint. -/
theorem c6_capacity_and_full_join (p : parallel) (pos : Nat) (cancelPub : Nat → Bool)
    (cancelOut : Bool) (arrival : List (Option Datum))
    (hnc : ∀ j, j < p.tasks.length → cancelPub j = false)
    (hlen : arrival.length = p.tasks.length) :
    doneChanCapacity p = p.tasks.length
    ∧ countDone (runnerEvents p pos p.tasks.length) = doneChanCapacity p
    ∧ (executeTask p Datum.original cancelPub cancelOut arrival).received = arrival
    ∧ (executeTask p Datum.original cancelPub cancelOut arrival).received.length
        = p.tasks.length
    ∧ (∀ b : Bool,
        (executeTask p Datum.original cancelPub b arrival).received = arrival) := by
  have hex := fun b => executeTask_no_cancel p Datum.original cancelPub b arrival hnc
  have hrec : ∀ b : Bool,
      (executeTask p Datum.original cancelPub b arrival).received = arrival := by
    intro b
    rw [hex b]
  refine ⟨rfl, ?_, hrec cancelOut, ?_, hrec⟩
  · rw [countDone_runnerEvents]
    rfl
  · rw [hrec cancelOut, hlen]

/-- Claim C6 witness: `twoStage` with two successful outcomes. -/
theorem c6_capacity_and_full_join_witness :
    (∀ j, j < twoStage.tasks.length → (fun _ : Nat => false) j = false)
    ∧ ([some (Datum.clone 0), some (Datum.clone 1)].length = twoStage.tasks.length)
    ∧ (doneChanCapacity twoStage = twoStage.tasks.length
      ∧ (executeTask twoStage Datum.original (fun _ => false) false
          [some (Datum.clone 0), some (Datum.clone 1)]).received
          = [some (Datum.clone 0), some (Datum.clone 1)]) :=
  ⟨fun _ _ => rfl, rfl,
    (c6_capacity_and_full_join twoStage 0 (fun _ => false) false
      [some (Datum.clone 0), some (Datum.clone 1)] (fun _ _ => rfl) rfl).1,
    (c6_capacity_and_full_join twoStage 0 (fun _ => false) false
      [some (Datum.clone 0), some (Datum.clone 1)] (fun _ _ => rfl) rfl).2.2.1⟩

/-- Claim C7: if cancellation fires at the publish of clone `i` (and not
earlier), the executor returns immediately: exactly `i` runners were
dispatched, nothing is received from the completion channel, and the whole
admission carries no `ProcessedData`, `MarkAsProcessed` or `Output` event
for the original item. -/
theorem c7_cancel_during_publish_aborts (p : parallel) (pos : Nat)
    (cancelPub : Nat → Bool) (cancelOut : Bool) (arrival : List (Option Datum))
    (i : Nat) (hi : i < p.tasks.length) (hcan : cancelPub i = true)
    (hprev : ∀ j, j < i → cancelPub j = false) :
    executeTask p Datum.original cancelPub cancelOut arrival =
      { execEvents := (List.range i).map fun j => Event.newData (Datum.clone j)
        dispatched := i, aborted := true, received := [] }
    ∧ countProcessedOf (admissionEvents p Datum.original pos cancelPub cancelOut arrival)
        Datum.original = 0
    ∧ countMarkedOf (admissionEvents p Datum.original pos cancelPub cancelOut arrival)
        Datum.original = 0
    ∧ countOutputOf (admissionEvents p Datum.original pos cancelPub cancelOut arrival)
        Datum.original = 0 := by
  have hpub := publishClones_cancel cancelPub i p.tasks.length 0 hi
    (by simpa using hcan) (fun j hj => by simpa using hprev j hj)
  have hex : executeTask p Datum.original cancelPub cancelOut arrival =
      { execEvents := (List.range i).map fun j => Event.newData (Datum.clone j)
        dispatched := i, aborted := true, received := [] } := by
    simp only [executeTask, hpub, List.range_eq_range', Nat.zero_add]
    simp
  refine ⟨hex, ?_, ?_, ?_⟩ <;>
    simp [admissionEvents, hex, countProcessedOf_append, countMarkedOf_append,
      countOutputOf_append, countProcessedOf_newData, countMarkedOf_newData,
      countOutputOf_newData, countProcessedOf_runnerEvents_original,
      countMarkedOf_runnerEvents_original, countOutputOf_runnerEvents]

/-- Claim C7 witness: `twoStage`, cancellation firing at the publish of
clone 1. -/
theorem c7_cancel_during_publish_aborts_witness :
    (1 < twoStage.tasks.length)
    ∧ ((fun j => decide (j = 1)) 1 = true)
    ∧ (∀ j, j < 1 → (fun j => decide (j = 1)) j = false)
    ∧ executeTask twoStage Datum.original (fun j => decide (j = 1)) false [] =
        { execEvents := (List.range 1).map fun j => Event.newData (Datum.clone j)
          dispatched := 1, aborted := true, received := [] } :=
  ⟨by decide, rfl,
    fun j hj => by simp [Nat.lt_one_iff.mp hj],
    (c7_cancel_during_publish_aborts twoStage 0 (fun j => decide (j = 1)) false []
      1 (by decide) rfl (fun j hj => by simp [Nat.lt_one_iff.mp hj])).1⟩

/-- Claim C8: when all received outcomes are non-nil but cancellation
fires before `Output` accepts the original, the executor's trace is the N
`NewData` publishes alone: the forward is abandoned and, unlike on the
failure path (which always announces the original), no
processed-notification or mark is ever emitted for the original. -/
theorem c8_cancelled_forward_silent_drop (p : parallel) (pos : Nat)
    (cancelPub : Nat → Bool) (arrival : List (Option Datum))
    (hnc : ∀ j, j < p.tasks.length → cancelPub j = false)
    (hok : joinFailed arrival = false) :
    (executeTask p Datum.original cancelPub true arrival).execEvents
      = ((List.range p.tasks.length).map fun j => Event.newData (Datum.clone j))
    ∧ Event.outputSend Datum.original ∉
        (executeTask p Datum.original cancelPub true arrival).execEvents
    ∧ countProcessedOf (admissionEvents p Datum.original pos cancelPub true arrival)
        Datum.original = 0
    ∧ countMarkedOf (admissionEvents p Datum.original pos cancelPub true arrival)
        Datum.original = 0
    ∧ (∀ arrival₂ : List (Option Datum), joinFailed arrival₂ = true →
        countProcessedOf (admissionEvents p Datum.original pos cancelPub true arrival₂)
          Datum.original = 1) := by
  have hex := executeTask_no_cancel p Datum.original cancelPub true arrival hnc
  refine ⟨?_, ?_, ?_, ?_, ?_⟩
  · rw [hex]
    simp [hok]
  · rw [hex]
    simp [hok]
  · simp only [admissionEvents, hex]
    simp [hok, countProcessedOf_append, countProcessedOf_newData,
      countProcessedOf_runnerEvents_original, countProcessedOf_nil]
  · simp only [admissionEvents, hex]
    simp [hok, countMarkedOf_append, countMarkedOf_newData,
      countMarkedOf_runnerEvents_original, countMarkedOf_nil]
  · intro arrival₂ hf
    have hex₂ := executeTask_no_cancel p Datum.original cancelPub true arrival₂ hnc
    simp only [admissionEvents, hex₂]
    simp [hf, countProcessedOf_append, countProcessedOf_newData,
      countProcessedOf_runnerEvents_original, countProcessedOf_cons]

/-- Claim C8 witness: `sampleStage` with a successful outcome and
cancellation at the forward waypoint. -/
theorem c8_cancelled_forward_silent_drop_witness :
    (∀ j, j < sampleStage.tasks.length → (fun _ : Nat => false) j = false)
    ∧ joinFailed [some (Datum.clone 0)] = false
    ∧ ((executeTask sampleStage Datum.original (fun _ => false) true
          [some (Datum.clone 0)]).execEvents
        = ((List.range sampleStage.tasks.length).map
            fun j => Event.newData (Datum.clone j))
      ∧ countProcessedOf
          (admissionEvents sampleStage Datum.original 0 (fun _ => false) true
            [some (Datum.clone 0)]) Datum.original = 0) :=
  ⟨fun _ _ => rfl, rfl,
    (c8_cancelled_forward_silent_drop sampleStage 0 (fun _ => false)
      [some (Datum.clone 0)] (fun _ _ => rfl) rfl).1,
    (c8_cancelled_forward_silent_drop sampleStage 0 (fun _ => false)
      [some (Datum.clone 0)] (fun _ _ => rfl) rfl).2.2.1⟩

/-- Claim C9: an item popped from the Requeue Queue is handed to the same
`executeTask` as an item received on the direct input channel, so the loop
iteration's outcome is identical for the two admission sources. -/
theorem c9_requeue_parity (p : parallel) (cancelPub : Nat → Bool) (cancelOut : Bool)
    (arrival : List (Option Datum)) (d : Datum) :
    stepOutcome p cancelPub cancelOut arrival (LoopEvent.inputRecv (some d))
      = stepOutcome p cancelPub cancelOut arrival
          (LoopEvent.queueSignal (some (QVal.data d))) := rfl

/-- Claim C10: the `Parallel` constructor returns `nil` on an empty task
list, and on a non-empty task list returns a stage whose `ID()` is the
given id string. -/
theorem c10_constructor_empty_nil (id : String) :
    Parallel id [] = none
    ∧ ∀ tasks : List Task, tasks ≠ [] →
        ∃ p, Parallel id tasks = some p ∧ p.ID = id := by
  refine ⟨rfl, ?_⟩
  intro ts hts
  refine ⟨{ id := id, tasks := ts }, ?_, rfl⟩
  rw [Parallel, if_neg]
  simpa [List.length_eq_zero] using hts

/-- Claim C10 witness: empty list and the one-task list `[okTask]`. -/
theorem c10_constructor_empty_nil_witness :
    ([okTask] ≠ ([] : List Task))
    ∧ Parallel "s" [] = none
    ∧ ∃ p, Parallel "s" [okTask] = some p ∧ p.ID = "s" :=
  ⟨by simp, (c10_constructor_empty_nil "s").1,
    (c10_constructor_empty_nil "s").2 [okTask] (by simp)⟩

end pipeline
